import Mathlib

/-!
Verification of the workflow-scanning pipeline in `findaction.py`.

The development shallowly embeds the program: YAML values become the
inductive `Yaml`, Python's partial operations (`in`, indexing, `.items()`,
`.get`, iteration) become `Except`-valued functions that model the
exceptions the interpreter would raise, and the functions
`analyze_workflow_content`, `search_for_action` and `main` are translated
line by line.  External collaborators (the HTTP transport, the YAML
parsing primitive, the content fetcher's network call) are supplied as
oracle inputs, matching the spec's component boundaries.
-/

/-- A parsed YAML / JSON value, as produced by `yaml.safe_load` /
`response.json()`.  `null` models Python `None` (the result of loading an
empty document). -/
inductive Yaml where
  | null : Yaml
  | bool (b : Bool) : Yaml
  | int (n : Int) : Yaml
  | str (s : String) : Yaml
  | seq (xs : List Yaml) : Yaml
  | map (kvs : List (String × Yaml)) : Yaml

mutual

def yamlDecEq : (a b : Yaml) → Decidable (a = b)
  | .null, .null => .isTrue rfl
  | .null, .bool _ => .isFalse (fun h => Yaml.noConfusion h)
  | .null, .int _ => .isFalse (fun h => Yaml.noConfusion h)
  | .null, .str _ => .isFalse (fun h => Yaml.noConfusion h)
  | .null, .seq _ => .isFalse (fun h => Yaml.noConfusion h)
  | .null, .map _ => .isFalse (fun h => Yaml.noConfusion h)
  | .bool _, .null => .isFalse (fun h => Yaml.noConfusion h)
  | .bool a, .bool b =>
    match decEq a b with
    | .isTrue h => .isTrue (h ▸ rfl)
    | .isFalse h => .isFalse (fun hc => h (Yaml.noConfusion hc id))
  | .bool _, .int _ => .isFalse (fun h => Yaml.noConfusion h)
  | .bool _, .str _ => .isFalse (fun h => Yaml.noConfusion h)
  | .bool _, .seq _ => .isFalse (fun h => Yaml.noConfusion h)
  | .bool _, .map _ => .isFalse (fun h => Yaml.noConfusion h)
  | .int _, .null => .isFalse (fun h => Yaml.noConfusion h)
  | .int _, .bool _ => .isFalse (fun h => Yaml.noConfusion h)
  | .int a, .int b =>
    match decEq a b with
    | .isTrue h => .isTrue (h ▸ rfl)
    | .isFalse h => .isFalse (fun hc => h (Yaml.noConfusion hc id))
  | .int _, .str _ => .isFalse (fun h => Yaml.noConfusion h)
  | .int _, .seq _ => .isFalse (fun h => Yaml.noConfusion h)
  | .int _, .map _ => .isFalse (fun h => Yaml.noConfusion h)
  | .str _, .null => .isFalse (fun h => Yaml.noConfusion h)
  | .str _, .bool _ => .isFalse (fun h => Yaml.noConfusion h)
  | .str _, .int _ => .isFalse (fun h => Yaml.noConfusion h)
  | .str a, .str b =>
    match decEq a b with
    | .isTrue h => .isTrue (h ▸ rfl)
    | .isFalse h => .isFalse (fun hc => h (Yaml.noConfusion hc id))
  | .str _, .seq _ => .isFalse (fun h => Yaml.noConfusion h)
  | .str _, .map _ => .isFalse (fun h => Yaml.noConfusion h)
  | .seq _, .null => .isFalse (fun h => Yaml.noConfusion h)
  | .seq _, .bool _ => .isFalse (fun h => Yaml.noConfusion h)
  | .seq _, .int _ => .isFalse (fun h => Yaml.noConfusion h)
  | .seq _, .str _ => .isFalse (fun h => Yaml.noConfusion h)
  | .seq xs, .seq ys =>
    match yamlDecEqList xs ys with
    | .isTrue h => .isTrue (h ▸ rfl)
    | .isFalse h => .isFalse (fun hc => h (Yaml.noConfusion hc id))
  | .seq _, .map _ => .isFalse (fun h => Yaml.noConfusion h)
  | .map _, .null => .isFalse (fun h => Yaml.noConfusion h)
  | .map _, .bool _ => .isFalse (fun h => Yaml.noConfusion h)
  | .map _, .int _ => .isFalse (fun h => Yaml.noConfusion h)
  | .map _, .str _ => .isFalse (fun h => Yaml.noConfusion h)
  | .map _, .seq _ => .isFalse (fun h => Yaml.noConfusion h)
  | .map kvs, .map lvs =>
    match yamlDecEqPairs kvs lvs with
    | .isTrue h => .isTrue (h ▸ rfl)
    | .isFalse h => .isFalse (fun hc => h (Yaml.noConfusion hc id))

def yamlDecEqList : (xs ys : List Yaml) → Decidable (xs = ys)
  | [], [] => .isTrue rfl
  | [], _ :: _ => .isFalse (fun h => List.noConfusion h)
  | _ :: _, [] => .isFalse (fun h => List.noConfusion h)
  | x :: xs, y :: ys =>
    match yamlDecEq x y with
    | .isTrue h1 =>
      match yamlDecEqList xs ys with
      | .isTrue h2 => .isTrue (h1 ▸ h2 ▸ rfl)
      | .isFalse h2 => .isFalse (fun hc => h2 (List.noConfusion hc (fun _ ht => ht)))
    | .isFalse h1 => .isFalse (fun hc => h1 (List.noConfusion hc (fun hh _ => hh)))

def yamlDecEqPairs : (xs ys : List (String × Yaml)) → Decidable (xs = ys)
  | [], [] => .isTrue rfl
  | [], _ :: _ => .isFalse (fun h => List.noConfusion h)
  | _ :: _, [] => .isFalse (fun h => List.noConfusion h)
  | (k, v) :: xs, (l, w) :: ys =>
    match decEq k l with
    | .isTrue hk =>
      match yamlDecEq v w with
      | .isTrue hv =>
        match yamlDecEqPairs xs ys with
        | .isTrue ht => .isTrue (hk ▸ hv ▸ ht ▸ rfl)
        | .isFalse ht => .isFalse (fun hc => ht (List.noConfusion hc (fun _ h2 => h2)))
      | .isFalse hv =>
        .isFalse (fun hc =>
          hv (List.noConfusion hc (fun h1 _ => congrArg Prod.snd h1)))
    | .isFalse hk =>
      .isFalse (fun hc =>
        hk (List.noConfusion hc (fun h1 _ => congrArg Prod.fst h1)))

end

instance : DecidableEq Yaml := yamlDecEq

/-- Exceptions the embedded Python fragments can raise. -/
inductive PyExc where
  | typeError : PyExc
  | keyError : PyExc
  | attributeError : PyExc
  | yamlError (msg : String) : PyExc
  | httpError (status : Nat) (bodyText : String) : PyExc
  | connectionError (msg : String) : PyExc
deriving DecidableEq

/-- Rendering of an exception, as interpolated by Python `f"... {e}"`.
The exact wording is inessential; what matters for the theorems is which
strings surround it. -/
def excMsg : PyExc → String
  | .typeError => "TypeError: argument of type 'NoneType' is not iterable"
  | .keyError => "KeyError"
  | .attributeError => "AttributeError"
  | .yamlError m => m
  | .httpError s _ => toString s ++ " Error"
  | .connectionError m => m

/-- Containment of `needle` as a contiguous sublist of `hay`. -/
def listInfix (needle : List Char) : List Char → Bool
  | [] => needle.isEmpty
  | c :: cs => needle.isPrefixOf (c :: cs) || listInfix needle cs

/-- Python substring containment `needle in hay` on strings. -/
def pyStrIn (needle hay : String) : Bool :=
  listInfix needle.data hay.data

/-- Python truthiness of a YAML value (`if workflow_data:` etc.). -/
def pyTruthy : Yaml → Bool
  | .null => false
  | .bool b => b
  | .int n => n != 0
  | .str s => !s.isEmpty
  | .seq xs => !xs.isEmpty
  | .map kvs => !kvs.isEmpty

/-- Python `key in v`: key membership on a dict, element membership on a
list, substring on a string; raises `TypeError` on non-containers. -/
def pyIn (key : String) : Yaml → Except PyExc Bool
  | .map kvs => .ok (kvs.lookup key).isSome
  | .seq xs => .ok (xs.contains (Yaml.str key))
  | .str s => .ok (pyStrIn key s)
  | _ => .error .typeError

/-- Python `v[key]` with a string key: dict lookup (KeyError when the key
is absent); `TypeError` on every other value ("indices must be
integers"). -/
def pyGetItem (v : Yaml) (key : String) : Except PyExc Yaml :=
  match v with
  | .map kvs =>
    match kvs.lookup key with
    | some y => .ok y
    | none => .error .keyError
  | _ => .error .typeError

/-- Python `v.get(key, dflt)`: only dicts have `.get`. -/
def pyGet (v : Yaml) (key : String) (dflt : Yaml) : Except PyExc Yaml :=
  match v with
  | .map kvs => .ok ((kvs.lookup key).getD dflt)
  | _ => .error .attributeError

/-- Python `v.items()`: only dicts have `.items`. -/
def pyItems (v : Yaml) : Except PyExc (List (String × Yaml)) :=
  match v with
  | .map kvs => .ok kvs
  | _ => .error .attributeError

/-- Python iteration `for x in v`: lists yield their elements, dicts their
keys, strings their characters; other values raise `TypeError`. -/
def pyIter (v : Yaml) : Except PyExc (List Yaml) :=
  match v with
  | .seq xs => .ok xs
  | .map kvs => .ok (kvs.map (fun kv => Yaml.str kv.1))
  | .str s => .ok (s.data.map (fun c => Yaml.str (String.singleton c)))
  | _ => .error .typeError

/-- One extracted action invocation, the dict built at the `append` in
`analyze_workflow_content`. -/
structure ActionInstance where
  job : String
  step_name : Yaml
  action_ref : Yaml
  inputs : Yaml
deriving DecidableEq

/-- The `file_info` dict handed to the analyzer. -/
structure FileInfo where
  repo : String
  path : String
  name : String
deriving DecidableEq

/-! ## The Workflow Analyzer (`analyze_workflow_content`, lines 60-92)

The body of the Python `try:` block is embedded in the `Except PyExc`
monad: raising maps to `.error`, and the blanket `except Exception`
handler at the end of the function maps to the `match` in
`analyze_workflow_content` below.  The shared mutable `instances` list is
threaded as an explicit accumulator `acc`; every append happens at the
tail, so the accumulator order is the document order. -/

/-- Lines 76-87: the body of the step loop, for the step at (0-based)
index `i`.  Returns the appended instance, if any. -/
def analyzeStep (action_name job_name : String) (i : Nat) (step : Yaml) :
    Except PyExc (Option ActionInstance) := do
  let hasUses ← pyIn "uses" step
  if hasUses then
    let usesVal ← pyGetItem step "uses"
    let m ← pyIn action_name usesVal
    if m then
      let step_name ← pyGet step "name" (Yaml.str ("Step " ++ toString (i + 1)))
      let action_ref := usesVal
      let step_inputs ← pyGet step "with" (Yaml.map [])
      pure (some { job := job_name, step_name := step_name,
                   action_ref := action_ref, inputs := step_inputs })
    else
      pure none
  else
    pure none

/-- Line 75: `for step_index, step in enumerate(job_config['steps'])`,
threading the shared `instances` accumulator. -/
def analyzeSteps (action_name job_name : String) :
    List (Nat × Yaml) → List ActionInstance → Except PyExc (List ActionInstance)
  | [], acc => .ok acc
  | p :: ps, acc => do
    let r ← analyzeStep action_name job_name p.1 p.2
    match r with
    | some inst => analyzeSteps action_name job_name ps (acc ++ [inst])
    | none => analyzeSteps action_name job_name ps acc

/-- Lines 73-87: the body of the job loop (`if 'steps' in job_config:`). -/
def analyzeJob (action_name job_name : String) (job_config : Yaml)
    (acc : List ActionInstance) : Except PyExc (List ActionInstance) := do
  let hasSteps ← pyIn "steps" job_config
  if hasSteps then
    let stepsVal ← pyGetItem job_config "steps"
    let steps ← pyIter stepsVal
    analyzeSteps action_name job_name steps.enum acc
  else
    .ok acc

/-- Line 72: `for job_name, job_config in workflow_data['jobs'].items()`. -/
def analyzeJobs (action_name : String) :
    List (String × Yaml) → List ActionInstance → Except PyExc (List ActionInstance)
  | [], acc => .ok acc
  | jc :: rest, acc => do
    let acc2 ← analyzeJob action_name jc.1 jc.2 acc
    analyzeJobs action_name rest acc2

/-- Lines 67-89: from `yaml.safe_load` (already performed; `workflow_data`
is the argument) to `return instances`. -/
def analyzeDoc (action_name : String) (workflow_data : Yaml) :
    Except PyExc (List ActionInstance) := do
  if pyTruthy workflow_data then
    let hasJobs ← pyIn "jobs" workflow_data
    if hasJobs then
      let jobsVal ← pyGetItem workflow_data "jobs"
      let jobs ← pyItems jobsVal
      analyzeJobs action_name jobs []
    else
      .ok []
  else
    .ok []

/-- Lines 60-92, `analyze_workflow_content`.  The YAML parsing primitive
is an external collaborator, passed as the oracle `parse` (it returns
`.error` where `yaml.safe_load` raises, and `.ok .null` where it returns
`None`).  The returned pair is (diagnostic lines printed, instances). -/
def analyze_workflow_content (parse : String → Except PyExc Yaml)
    (content action_name : String) (file_info : FileInfo) :
    List String × List ActionInstance :=
  let body : Except PyExc (List ActionInstance) := do
    if pyStrIn action_name content then
      let workflow_data ← parse content
      analyzeDoc action_name workflow_data
    else
      .ok []
  match body with
  | .ok instances => ([], instances)
  | .error e =>
    (["Error parsing workflow " ++ file_info.path ++ ": " ++ excMsg e], [])

/-! ## Shape of well-formed workflow documents

The spec's data model (§3): a WorkflowDocument is a mapping whose `jobs`
entry (when present) maps job names to job configurations; a job
configuration's `steps` entry (when present) is a sequence of step
mappings; a step's `uses` value (when present) is a string and its `with`
value (when present) is a mapping of input parameters. -/

/-- Well-formed step configuration. -/
def wfStep (v : Yaml) : Bool :=
  match v with
  | .map kvs =>
    (match kvs.lookup "uses" with
     | some (.str _) => true
     | some _ => false
     | none => true) &&
    (match kvs.lookup "with" with
     | some (.map _) => true
     | some _ => false
     | none => true)
  | _ => false

/-- Well-formed job configuration. -/
def wfJob (v : Yaml) : Bool :=
  match v with
  | .map kvs =>
    match kvs.lookup "steps" with
    | some (.seq steps) => steps.all wfStep
    | some _ => false
    | none => true
  | _ => false

/-- Well-formed workflow document. -/
def wfDoc (v : Yaml) : Bool :=
  match v with
  | .map kvs =>
    match kvs.lookup "jobs" with
    | some (.map jobs) => jobs.all (fun jc => wfJob jc.2)
    | some _ => false
    | none => true
  | _ => false

/-- The job collection of a document ([] when absent). -/
def docJobs (v : Yaml) : List (String × Yaml) :=
  match v with
  | .map kvs =>
    match kvs.lookup "jobs" with
    | some (.map jobs) => jobs
    | _ => []
  | _ => []

/-- The step sequence of a job configuration ([] when absent). -/
def jobSteps (v : Yaml) : List Yaml :=
  match v with
  | .map kvs =>
    match kvs.lookup "steps" with
    | some (.seq steps) => steps
    | _ => []
  | _ => []

/-- The `uses` reference field of a step configuration, if any. -/
def stepUses (v : Yaml) : Option Yaml :=
  match v with
  | .map kvs => kvs.lookup "uses"
  | _ => none

/-- Whether a step has a string `uses` field containing the target action
identifier as a substring. -/
def matchesTarget (action_name : String) (step : Yaml) : Bool :=
  match stepUses step with
  | some (.str u) => pyStrIn action_name u
  | _ => false

/-- The ActionInstance the analyzer appends for a matching step at
0-based index `i` of job `job_name` (meaningful for map-shaped steps). -/
def mkInstance (job_name : String) (i : Nat) (step : Yaml) : ActionInstance :=
  match step with
  | .map kvs =>
    { job := job_name
      step_name := (kvs.lookup "name").getD (.str ("Step " ++ toString (i + 1)))
      action_ref := (kvs.lookup "uses").getD .null
      inputs := (kvs.lookup "with").getD (.map []) }
  | _ => { job := job_name, step_name := .null, action_ref := .null, inputs := .null }

/-- Instances contributed by one enumerated step. -/
def stepContribution (action_name job_name : String) (p : Nat × Yaml) :
    List ActionInstance :=
  if matchesTarget action_name p.2 then [mkInstance job_name p.1 p.2] else []

/-- Instances contributed by one job. -/
def jobContribution (action_name job_name : String) (jc : Yaml) :
    List ActionInstance :=
  (jobSteps jc).enum.flatMap (stepContribution action_name job_name)

/-- All instances of a well-formed document, in document order. -/
def docInstances (action_name : String) (v : Yaml) : List ActionInstance :=
  (docJobs v).flatMap (fun jc => jobContribution action_name jc.1 jc.2)

/-! ## Refinement: the analyzer on well-formed documents -/

theorem analyzeStep_wf (a jn : String) (i : Nat) (step : Yaml)
    (h : wfStep step = true) :
    analyzeStep a jn i step =
      .ok (if matchesTarget a step then some (mkInstance jn i step) else none) := by
  cases step <;> simp [wfStep] at h
  case map kvs =>
    rcases hu : kvs.lookup "uses" with _ | u
    · simp [analyzeStep, pyIn, hu, matchesTarget, stepUses, Bind.bind, Except.bind]
      rfl
    · rw [hu] at h
      rcases u with _ | _ | _ | s | _ | _ <;> simp at h
      rcases hw : kvs.lookup "with" with _ | w
      · rw [hw] at h
        simp [analyzeStep, pyIn, pyGetItem, pyGet, hu, hw, matchesTarget, stepUses,
          mkInstance, Bind.bind, Except.bind]
        split <;> rfl
      · rw [hw] at h
        rcases w with _ | _ | _ | _ | _ | wk <;> simp at h
        simp [analyzeStep, pyIn, pyGetItem, pyGet, hu, hw, matchesTarget, stepUses,
          mkInstance, Bind.bind, Except.bind]
        split <;> rfl

theorem analyzeSteps_wf (a jn : String) (ps : List (Nat × Yaml))
    (acc : List ActionInstance) (h : ∀ p ∈ ps, wfStep p.2 = true) :
    analyzeSteps a jn ps acc = .ok (acc ++ ps.flatMap (stepContribution a jn)) := by
  induction ps generalizing acc with
  | nil => simp [analyzeSteps]
  | cons p ps ih =>
    have hp := h p (List.mem_cons_self p ps)
    have hps : ∀ q ∈ ps, wfStep q.2 = true := fun q hq => h q (List.mem_cons_of_mem p hq)
    rw [analyzeSteps]
    simp only [analyzeStep_wf a jn p.1 p.2 hp, Bind.bind, Except.bind]
    by_cases hm : matchesTarget a p.2
    · simp only [hm, if_true, ih _ hps, stepContribution, List.flatMap_cons]
      simp
    · simp only [hm, if_false, ih _ hps, stepContribution, List.flatMap_cons]
      simp [hm]

theorem analyzeJob_wf (a jn : String) (jc : Yaml) (acc : List ActionInstance)
    (h : wfJob jc = true) :
    analyzeJob a jn jc acc = .ok (acc ++ jobContribution a jn jc) := by
  cases jc <;> simp [wfJob] at h
  case map kvs =>
    rcases hs : kvs.lookup "steps" with _ | v
    · simp [analyzeJob, pyIn, hs, jobContribution, jobSteps, Bind.bind, Except.bind]
    · rw [hs] at h
      rcases v with _ | _ | _ | _ | steps | _ <;> simp at h
      have hwf : ∀ p ∈ steps.enum, wfStep p.2 = true := by
        intro p hp
        exact h p.2 (List.snd_mem_of_mem_enum hp)
      rw [analyzeJob]
      simp only [pyIn, hs, pyGetItem, pyIter, Option.isSome_some, if_true,
        Bind.bind, Except.bind]
      rw [analyzeSteps_wf a jn steps.enum acc hwf]
      simp [jobContribution, jobSteps, hs]

theorem analyzeJobs_wf (a : String) (jobs : List (String × Yaml))
    (acc : List ActionInstance) (h : ∀ jc ∈ jobs, wfJob jc.2 = true) :
    analyzeJobs a jobs acc =
      .ok (acc ++ jobs.flatMap (fun jc => jobContribution a jc.1 jc.2)) := by
  induction jobs generalizing acc with
  | nil => simp [analyzeJobs]
  | cons jc rest ih =>
    have hj := h jc (List.mem_cons_self jc rest)
    have hrest : ∀ q ∈ rest, wfJob q.2 = true := fun q hq => h q (List.mem_cons_of_mem jc hq)
    rw [analyzeJobs]
    simp only [analyzeJob_wf a jc.1 jc.2 acc hj, Bind.bind, Except.bind]
    rw [ih _ hrest]
    simp

theorem analyzeDoc_wf (a : String) (d : Yaml) (h : wfDoc d = true) :
    analyzeDoc a d = .ok (docInstances a d) := by
  cases d <;> simp [wfDoc] at h
  case map kvs =>
    rcases kvs with _ | ⟨kv, rest⟩
    · simp [analyzeDoc, pyTruthy, docInstances, docJobs]
    · rcases hj : (kv :: rest).lookup "jobs" with _ | v
      · rw [hj] at h
        simp [analyzeDoc, pyTruthy, pyIn, hj, docInstances, docJobs, Bind.bind, Except.bind]
      · rw [hj] at h
        rcases v with _ | _ | _ | _ | _ | jobs <;> simp at h
        have hwf : ∀ jc ∈ jobs, wfJob jc.2 = true := fun jc hjc => h jc.1 jc.2 hjc
        rw [analyzeDoc]
        simp only [pyTruthy, List.isEmpty_cons, Bool.not_false, if_true,
          pyIn, hj, pyGetItem, pyItems, Option.isSome_some, Bind.bind, Except.bind]
        rw [analyzeJobs_wf a jobs [] hwf]
        simp [docInstances, docJobs, hj]

theorem wfDoc_jobs (d : Yaml) (h : wfDoc d = true) :
    ∀ jc ∈ docJobs d, wfJob jc.2 = true := by
  intro jc hjc
  obtain ⟨jn, jcfg⟩ := jc
  cases d <;> simp [wfDoc] at h <;> try (simp [docJobs] at hjc)
  case map kvs =>
    rcases hj : kvs.lookup "jobs" with _ | v
    · simp [docJobs, hj] at hjc
    · rw [hj] at h
      rcases v with _ | _ | _ | _ | _ | jobs <;> simp at h
      simp [docJobs, hj] at hjc
      exact h jn jcfg hjc

theorem wfJob_steps (jc : Yaml) (h : wfJob jc = true) :
    ∀ s ∈ jobSteps jc, wfStep s = true := by
  intro s hmem
  cases jc <;> simp [wfJob] at h <;> try (simp [jobSteps] at hmem)
  case map kvs =>
    rcases hs : kvs.lookup "steps" with _ | v
    · simp [jobSteps, hs] at hmem
    · rw [hs] at h
      rcases v with _ | _ | _ | _ | steps | _ <;> simp at h
      simp [jobSteps, hs] at hmem
      exact h s hmem

theorem matchesTarget_iff (a : String) (step : Yaml) :
    matchesTarget a step = true ↔
      ∃ u, stepUses step = some (Yaml.str u) ∧ pyStrIn a u = true := by
  unfold matchesTarget
  rcases h : stepUses step with _ | u
  · simp
  · rcases u <;> simp

theorem mkInstance_ref (jn : String) (i : Nat) (step : Yaml) (a : String)
    (hm : matchesTarget a step = true) :
    ∃ u, (mkInstance jn i step).action_ref = Yaml.str u ∧ pyStrIn a u = true := by
  rcases (matchesTarget_iff a step).1 hm with ⟨u, hu, hs⟩
  cases step <;> simp [stepUses] at hu
  case map kvs =>
    exact ⟨u, by simp [mkInstance, hu], hs⟩

/-! ## Claim theorems for the Workflow Analyzer -/

/-- C1: For every (well-formed) parsed workflow document, every job, and
every step in that job's step sequence, the analyzer produces an
ActionInstance for the step iff the step has a `uses` field whose value
contains the target action identifier as a substring; the analyzer's
output is exactly the concatenation of these per-step contributions, and
consequently every produced record's action reference contains the target
identifier as a substring. -/
theorem analyzer_matches_iff_substring (a : String) (d : Yaml) (h : wfDoc d = true) :
    analyzeDoc a d = .ok (docInstances a d) ∧
    (∀ jc ∈ docJobs d, ∀ p ∈ (jobSteps jc.2).enum,
      (stepContribution a jc.1 p ≠ [] ↔
        ∃ u, stepUses p.2 = some (Yaml.str u) ∧ pyStrIn a u = true)) ∧
    (∀ inst ∈ docInstances a d,
      ∃ u, inst.action_ref = Yaml.str u ∧ pyStrIn a u = true) := by
  refine ⟨analyzeDoc_wf a d h, ?_, ?_⟩
  · intro jc _ p _
    rw [← matchesTarget_iff a p.2]
    unfold stepContribution
    by_cases hm : matchesTarget a p.2 <;> simp [hm]
  · intro inst hinst
    unfold docInstances at hinst
    rw [List.mem_flatMap] at hinst
    obtain ⟨jc, hjc, hinst⟩ := hinst
    unfold jobContribution at hinst
    rw [List.mem_flatMap] at hinst
    obtain ⟨p, _, hinst⟩ := hinst
    unfold stepContribution at hinst
    by_cases hm : matchesTarget a p.2
    · rw [if_pos hm] at hinst
      simp at hinst
      subst hinst
      exact mkInstance_ref jc.1 p.1 p.2 a hm
    · rw [if_neg hm] at hinst
      simp at hinst

/-- Example workflow document for the C1 witness: three steps whose
references contain target `a/b` (`a/b@v2`, `a/b-suffix@v1`, `x/a/b@v1`),
one step without a reference field, and one step referencing an unrelated
action. -/
def exDocC1 : Yaml :=
  .map [("jobs", .map [
    ("build", .map [("steps", .seq [
      .map [("name", .str "Checkout"), ("uses", .str "a/b@v2")],
      .map [("uses", .str "a/b-suffix@v1"), ("with", .map [("depth", .int 1)])],
      .map [("uses", .str "x/a/b@v1")],
      .map [("run", .str "echo build")],
      .map [("uses", .str "c/d@v1")]])])])]

theorem analyzer_matches_iff_substring_witness :
    wfDoc exDocC1 = true ∧
    (analyzeDoc "a/b" exDocC1 = .ok (docInstances "a/b" exDocC1) ∧
     (∀ jc ∈ docJobs exDocC1, ∀ p ∈ (jobSteps jc.2).enum,
       (stepContribution "a/b" jc.1 p ≠ [] ↔
         ∃ u, stepUses p.2 = some (Yaml.str u) ∧ pyStrIn "a/b" u = true)) ∧
     (∀ inst ∈ docInstances "a/b" exDocC1,
       ∃ u, inst.action_ref = Yaml.str u ∧ pyStrIn "a/b" u = true)) :=
  ⟨by decide, analyzer_matches_iff_substring "a/b" exDocC1 (by decide)⟩

/-- C9: for a matching step (string `uses` value containing the target),
a missing `name` field synthesizes the display name "Step (i+1)" from the
0-based step index `i`, while a present `name` field is used verbatim. -/
theorem step_display_name (a jn : String) (i : Nat) (kvs : List (String × Yaml))
    (u : String) (hu : kvs.lookup "uses" = some (Yaml.str u))
    (hm : pyStrIn a u = true) :
    (kvs.lookup "name" = none →
      analyzeStep a jn i (.map kvs) =
        .ok (some { job := jn, step_name := .str ("Step " ++ toString (i + 1)),
                    action_ref := .str u,
                    inputs := (kvs.lookup "with").getD (.map []) })) ∧
    (∀ v, kvs.lookup "name" = some v →
      analyzeStep a jn i (.map kvs) =
        .ok (some { job := jn, step_name := v, action_ref := .str u,
                    inputs := (kvs.lookup "with").getD (.map []) })) := by
  constructor
  · intro hn
    simp [analyzeStep, pyIn, pyGetItem, pyGet, hu, hm, hn, Bind.bind, Except.bind]
    rfl
  · intro v hn
    simp [analyzeStep, pyIn, pyGetItem, pyGet, hu, hm, hn, Bind.bind, Except.bind]
    rfl

theorem step_display_name_witness :
    [("uses", Yaml.str "a/b@v3")].lookup "uses" = some (Yaml.str "a/b@v3") ∧
    pyStrIn "a/b" "a/b@v3" = true ∧
    ([("uses", Yaml.str "a/b@v3")].lookup "name" = none →
      analyzeStep "a/b" "deploy" 2 (.map [("uses", Yaml.str "a/b@v3")]) =
        .ok (some { job := "deploy", step_name := .str ("Step " ++ toString (2 + 1)),
                    action_ref := .str "a/b@v3",
                    inputs := ([("uses", Yaml.str "a/b@v3")].lookup "with").getD (.map []) })) :=
  ⟨by decide, by decide,
   (step_display_name "a/b" "deploy" 2 [("uses", Yaml.str "a/b@v3")] "a/b@v3"
      (by decide) (by decide)).1⟩

/-- C6: when the target action identifier does not occur in the raw file
text, the analyzer returns no diagnostics and no instances, whatever the
parser would do on that text (in particular even a parser that fails on
it is never consulted). -/
theorem fast_path_rejects (parse : String → Except PyExc Yaml)
    (content a : String) (fi : FileInfo) (h : pyStrIn a content = false) :
    analyze_workflow_content parse content a fi = ([], []) := by
  simp [analyze_workflow_content, h]

theorem fast_path_rejects_witness :
    pyStrIn "a/b" "jobs: [unparseable" = false ∧
    analyze_workflow_content (fun _ => .error (.yamlError "malformed document"))
      "jobs: [unparseable" "a/b" ⟨"octo/repo", ".github/workflows/ci.yml", "ci.yml"⟩ =
      ([], []) :=
  ⟨by decide,
   fast_path_rejects (fun _ => .error (.yamlError "malformed document"))
     "jobs: [unparseable" "a/b" ⟨"octo/repo", ".github/workflows/ci.yml", "ci.yml"⟩
     (by decide)⟩

/-- C5 (amended): for file text containing the target identifier, a parse
failure is caught, a diagnostic naming the file's path is reported, and
the empty instance list is returned (the failure is never propagated);
an empty/absent parse result (`yaml.safe_load` returning `None`) also
yields the empty instance list, but silently, with no diagnostic. -/
theorem parse_failure_contained (parse : String → Except PyExc Yaml)
    (content a : String) (fi : FileInfo) (hc : pyStrIn a content = true) :
    (∀ e, parse content = .error e →
      analyze_workflow_content parse content a fi =
        (["Error parsing workflow " ++ fi.path ++ ": " ++ excMsg e], [])) ∧
    (parse content = .ok .null →
      analyze_workflow_content parse content a fi = ([], [])) := by
  constructor
  · intro e he
    simp [analyze_workflow_content, hc, he, Bind.bind, Except.bind]
  · intro he
    simp [analyze_workflow_content, hc, he, Bind.bind, Except.bind, analyzeDoc, pyTruthy]

theorem parse_failure_contained_witness :
    pyStrIn "a/b" "a/b: [" = true ∧
    (∀ e, (fun (_ : String) => (.error (.yamlError "while parsing a flow node") :
            Except PyExc Yaml)) "a/b: [" = .error e →
      analyze_workflow_content (fun _ => .error (.yamlError "while parsing a flow node"))
        "a/b: [" "a/b" ⟨"octo/repo", ".github/workflows/ci.yml", "ci.yml"⟩ =
        (["Error parsing workflow " ++ (FileInfo.mk "octo/repo" ".github/workflows/ci.yml" "ci.yml").path
            ++ ": " ++ excMsg e], [])) :=
  ⟨by decide,
   (parse_failure_contained (fun _ => .error (.yamlError "while parsing a flow node"))
      "a/b: [" "a/b" ⟨"octo/repo", ".github/workflows/ci.yml", "ci.yml"⟩ (by decide)).1⟩

/-- C5 counterexample to the claim as stated: text that contains the
target (a comment mentioning it), on which the parser yields an empty
document (`None` — exactly what `yaml.safe_load` returns for a
comment-only file): the analyzer returns the empty instance list but
reports NO diagnostic at all, contradicting "reports a diagnostic naming
the file's path" for the empty/absent branch of the claim. -/
theorem empty_parse_result_silent_cex :
    pyStrIn "a/b" "# uses a/b" = true ∧
    analyze_workflow_content (fun _ => .ok .null) "# uses a/b" "a/b"
      ⟨"octo/repo", ".github/workflows/ci.yml", "ci.yml"⟩ = ([], []) :=
  ⟨by decide, rfl⟩

/-- Document for C10: job `good` holds a step matching the target, job
`bad` has a null (non-mapping) configuration. -/
def exDocC10 : Yaml :=
  .map [("jobs", .map [
    ("good", .map [("steps", .seq [.map [("uses", .str "a/b@v1")]])]),
    ("bad", .null)])]

/-- C10: analyzing `exDocC10` discards the instance already accumulated
from the well-formed job: the good job alone yields one instance, but the
membership test `'steps' in None` on the null job raises TypeError, the
blanket handler catches it, and the whole file yields a diagnostic and an
empty instance list. -/
theorem nonmapping_job_discards_accumulated :
    analyzeJob "a/b" "good" (.map [("steps", .seq [.map [("uses", .str "a/b@v1")]])]) [] =
      .ok [{ job := "good", step_name := .str "Step 1",
             action_ref := .str "a/b@v1", inputs := .map [] }] ∧
    analyzeJobs "a/b" [("good", .map [("steps", .seq [.map [("uses", .str "a/b@v1")]])]),
        ("bad", .null)] [] = .error .typeError ∧
    analyzeDoc "a/b" exDocC10 = .error .typeError ∧
    analyze_workflow_content (fun _ => .ok exDocC10) "jobs using a/b" "a/b"
      ⟨"octo/repo", ".github/workflows/mixed.yml", "mixed.yml"⟩ =
      (["Error parsing workflow .github/workflows/mixed.yml: " ++ excMsg .typeError], []) :=
  ⟨rfl, rfl, rfl, rfl⟩

/-! ## Search Executor (`search_for_action`, lines 9-43)

The remote search API is the documented black-box collaborator (§6): the
transport either raises a connection-level exception (not an HTTPError —
`requests.get` itself does not raise `HTTPError`) or returns a response
with a status, a raw body text, a parsed JSON body exposing an optional
`message` field and an `items` list (absent items ≡ empty, matching
`.get('items', [])`), and an optional `X-RateLimit-Reset` header. -/

/-- Python `str.lower()` (character-wise, which is what CPython does). -/
def pyLower (s : String) : String :=
  String.mk (s.data.map Char.toLower)

/-- A search-API response, in the documented shape. -/
structure SearchItem where
  repo : String
  path : String
  url : String
deriving DecidableEq

structure SearchResponse where
  status : Nat
  bodyText : String
  message : Option String
  items : List SearchItem
  rateLimitReset : Option Int
deriving DecidableEq

/-- Outcome of `requests.get`: a response, or a transport-level exception
(connection error, timeout, ...) which is not an `HTTPError`. -/
inductive HttpResult where
  | resp (r : SearchResponse)
  | netError (msg : String)
deriving DecidableEq

/-- `response.raise_for_status()` raises for 4xx and 5xx statuses. -/
def raisesForStatus (status : Nat) : Bool :=
  400 ≤ status && status < 600

/-- Whether the parsed body carries a rate-limit message
(`'message' in search_results and 'rate limit' in
search_results['message'].lower()`). -/
def rateLimitedBody (r : SearchResponse) : Bool :=
  match r.message with
  | some m => pyStrIn "rate limit" (pyLower m)
  | none => false

/-- Lines 9-43, `search_for_action`.  `token` and `broader_search` only
shape the query string sent to the oracle transport, so they do not
influence the modelled control flow; `now` is `int(time.time())`.
Returns (operator prints, items or uncaught exception).  Only an
`HTTPError` (here: an error status reported by `raise_for_status`) is
caught by the `except` clause; a transport-level exception propagates. -/
def search_for_action (org action_name _token : String) (_broader_search : Bool)
    (http : HttpResult) (now : Int) : List String × Except PyExc (List SearchItem) :=
  let pre := ["Searching for workflow files in " ++ org ++ " organization..."]
  match http with
  | .netError msg => (pre, .error (.connectionError msg))
  | .resp r =>
    if raisesForStatus r.status then
      (pre ++ ["Error searching for actions: " ++ excMsg (.httpError r.status r.bodyText),
               "Response: " ++ r.bodyText], .ok [])
    else
      match r.message with
      | some m =>
        if pyStrIn "rate limit" (pyLower m) then
          let reset_time := r.rateLimitReset.getD 0
          let wait_time := max 0 (reset_time - now)
          (pre ++ ["Rate limit exceeded. Try again in " ++ toString wait_time ++
                   " seconds."], .ok [])
        else
          (pre, .ok r.items)
      | none => (pre, .ok r.items)

/-! ## Aggregator & Reporter (`main`, lines 94-193)

`get_file_content` (lines 45-58) is the Content Fetcher collaborator
whose network call and transport decoding no claim inspects; its outcome
for the `i`-th candidate is supplied by the oracle `fetch i` (`.error`
where it raises — any HTTP error propagates out of it — and `.ok text`
on success).  Prints, the courtesy `time.sleep(0.5)` pause and the report
file write are recorded as an event trace. -/

mutual

/-- Python `repr` of a YAML-loaded value (approximated for strings, which
is enough here: only which strings occur around it matters). -/
def pyRepr : Yaml → String
  | .null => "None"
  | .bool b => if b then "True" else "False"
  | .int n => toString n
  | .str s => "'" ++ s ++ "'"
  | .seq xs => "[" ++ pyReprList xs ++ "]"
  | .map kvs => "\x7b" ++ pyReprPairs kvs ++ "\x7d"

def pyReprList : List Yaml → String
  | [] => ""
  | [x] => pyRepr x
  | x :: xs => pyRepr x ++ ", " ++ pyReprList xs

def pyReprPairs : List (String × Yaml) → String
  | [] => ""
  | [kv] => "'" ++ kv.1 ++ "': " ++ pyRepr kv.2
  | kv :: kvs => "'" ++ kv.1 ++ "': " ++ pyRepr kv.2 ++ ", " ++ pyReprPairs kvs

end

/-- Python `str()` of a YAML-loaded value, as used by f-string
interpolation. -/
def pyStr0 : Yaml → String
  | .str s => s
  | v => pyRepr v

/-- `os.path.basename` for POSIX-style paths. -/
def basename (p : String) : String :=
  (p.splitOn "/").getLastD ""

/-- Command-line arguments after `argparse` (line 95-101).  `token` is
`None` when neither `--token` nor the environment variable supplies
one. -/
structure Args where
  org : String
  action : String
  token : Option String
  output : String
  broad : Bool

/-- Line 103: `if not args.token` — `None` and the empty string are both
falsy. -/
def tokenTruthy : Option String → Bool
  | none => false
  | some s => !s.isEmpty

/-- The record appended to `usage_by_repo[repo_name]` (line 145-149):
workflow file name and path merged with the ActionInstance fields. -/
structure UsageRecord where
  workflow : String
  path : String
  job : String
  step_name : Yaml
  action_ref : Yaml
  inputs : Yaml
deriving DecidableEq

def mkUsageRecord (workflow path : String) (inst : ActionInstance) : UsageRecord :=
  { workflow := workflow, path := path, job := inst.job,
    step_name := inst.step_name, action_ref := inst.action_ref,
    inputs := inst.inputs }

/-- Observable effects of a run. -/
inductive Event where
  | consolePrint (s : String)
  | sleepHalfSecond
  | fileWrite (path : String) (content : String)
deriving DecidableEq

/-- The external world of one run: the search transport outcome, the
clock, the per-candidate Content Fetcher outcomes (indexed by position in
the candidate list) and the YAML parsing primitive. -/
structure RunWorld where
  http : HttpResult
  now : Int
  fetch : Nat → Except PyExc String
  parse : String → Except PyExc Yaml

/-- Lines 118-155: the body of the scan loop for one candidate, where `k`
is the 1-based `files_processed` counter and `total_files` the candidate
count.  Returns (events, usage records built from this file).  Only
`get_file_content` can raise inside the `try`: the analyzer catches its
own failures, and the `time.sleep(0.5)` at line 152 sits INSIDE the
`try`, after the analysis — so the pause is reached only when the fetch
succeeded. -/
def processItem (action : String) (parse : String → Except PyExc Yaml)
    (fetched : Except PyExc String) (k total_files : Nat) (item : SearchItem) :
    List Event × List UsageRecord :=
  let file_name := basename item.path
  let hdr := Event.consolePrint ("[" ++ toString k ++ "/" ++ toString total_files ++
    "] Analyzing " ++ item.repo ++ "/" ++ item.path ++ "...")
  match fetched with
  | .error e =>
    ([hdr, .consolePrint ("Error processing " ++ item.path ++ ": " ++ excMsg e)], [])
  | .ok content =>
    let res := analyze_workflow_content parse content action
      ⟨item.repo, item.path, file_name⟩
    let foundPrints : List Event :=
      if res.2.isEmpty then []
      else [.consolePrint ("  Found " ++ toString res.2.length ++ " instances of " ++ action)]
    ([hdr] ++ res.1.map Event.consolePrint ++ foundPrints ++ [Event.sleepHalfSecond],
     res.2.map (mkUsageRecord file_name item.path))

/-- `usage_by_repo` update: create the repo's list on first use, then
append (insertion order of repos preserved, records appended at the
tail). -/
def addRecord (m : List (String × List UsageRecord)) (repo : String)
    (r : UsageRecord) : List (String × List UsageRecord) :=
  match m with
  | [] => [(repo, [r])]
  | (k, v) :: rest =>
    if k == repo then (k, v ++ [r]) :: rest else (k, v) :: addRecord rest repo r

/-- State of the scan loop: `usage_by_repo` (insertion-ordered),
`total_usages`, and the event trace so far. -/
structure LoopState where
  usage : List (String × List UsageRecord)
  total : Nat
  events : List Event

def emptyLoopState : LoopState := ⟨[], 0, []⟩

/-- The scan loop over the enumerated candidates. -/
def runLoopAux (action : String) (w : RunWorld) (total_files : Nat) :
    List (Nat × SearchItem) → LoopState → LoopState
  | [], st => st
  | p :: ps, st =>
    let pr := processItem action w.parse (w.fetch p.1) (p.1 + 1) total_files p.2
    runLoopAux action w total_files ps
      { usage := pr.2.foldl (fun m r => addRecord m p.2.repo r) st.usage
        total := st.total + pr.2.length
        events := st.events ++ pr.1 }

def runLoop (action : String) (w : RunWorld) (items : List SearchItem) : LoopState :=
  runLoopAux action w items.length items.enum emptyLoopState

/-- Lines 174-186: the block written for one instance, 1-based number
`i`.  Iterating `instance['inputs'].items()` is only possible on a
mapping; any other truthy value raises (uncaught, inside the report
writing). -/
def renderInstance (i : Nat) (r : UsageRecord) : Except PyExc String := do
  let head :=
    "Instance #" ++ toString i ++ ":\n" ++
    "  Workflow: " ++ r.workflow ++ " (" ++ r.path ++ ")\n" ++
    "  Job: " ++ r.job ++ "\n" ++
    "  Step: " ++ pyStr0 r.step_name ++ "\n" ++
    "  Action Reference: " ++ pyStr0 r.action_ref ++ "\n"
  let cfg ←
    if pyTruthy r.inputs then
      match r.inputs with
      | .map kvs =>
        pure ("  Configuration:\n" ++
          String.join (kvs.map (fun kv => "    " ++ kv.1 ++ ": " ++ pyStr0 kv.2 ++ "\n")))
      | _ => .error .attributeError
    else
      pure ""
  pure (head ++ cfg ++ "\n")

def renderInstances : Nat → List UsageRecord → Except PyExc String
  | _, [] => .ok ""
  | i, r :: rs => do
    let s ← renderInstance i r
    let rest ← renderInstances (i + 1) rs
    pure (s ++ rest)

/-- Lines 171-188: the block written for one repository. -/
def renderRepo (repo : String) (recs : List UsageRecord) : Except PyExc String := do
  let head := "Repository: " ++ repo ++ "\n" ++
    String.mk (List.replicate ("Repository: " ++ repo).length '-') ++ "\n"
  let body ← renderInstances 1 recs
  pure (head ++ body ++ "\n")

def renderRepos : List (String × List UsageRecord) → Except PyExc String
  | [] => .ok ""
  | (k, v) :: rest => do
    let s ← renderRepo k v
    let r ← renderRepos rest
    pure (s ++ r)

/-- `sorted(usage_by_repo.items())`: keys are unique, so Python's sort
orders by the repository full name. -/
def sortRepos (m : List (String × List UsageRecord)) :
    List (String × List UsageRecord) :=
  List.insertionSort (fun a b => a.1 ≤ b.1) m

/-- The fixed header of the report (lines 161-164). -/
def reportHeader (action org : String) (repos_with_action total_usages : Nat) : String :=
  "Usage Report for '" ++ action ++ "' in " ++ org ++ "\n" ++
  String.mk (List.replicate 47 '=') ++ "\n\n" ++
  "Repositories using this action: " ++ toString repos_with_action ++ "\n" ++
  "Total usages found: " ++ toString total_usages ++ "\n\n"

/-- Lines 158-190: the full report text. -/
def renderReport (action org : String) (m : List (String × List UsageRecord))
    (total_usages : Nat) : Except PyExc String := do
  let repos_with_action := m.length
  let hdr := reportHeader action org repos_with_action total_usages
  if repos_with_action > 0 then
    let body ← renderRepos (sortRepos m)
    pure (hdr ++ "Detailed Usage by Repository:\n" ++ (String.mk (List.replicate 28 '=') ++ "\n\n") ++ body)
  else
    pure (hdr ++ "No instances of this action were found.\n")

/-- Termination status of a run of `main`. -/
inductive MainResult where
  | exitConfig
  | finished
  | crashed (e : PyExc)
deriving DecidableEq

/-- Lines 94-193, `main`: credential check, one search, the scan loop,
report writing and the completion summary.  Returns the event trace and
the termination status (`exitConfig` = `exit(1)`, `crashed` = uncaught
exception, i.e. abnormal nonzero termination). -/
def mainRun (args : Args) (w : RunWorld) : List Event × MainResult :=
  if !tokenTruthy args.token then
    ([.consolePrint "Error: GitHub token is required. Set GITHUB_TOKEN environment variable or use --token."],
     .exitConfig)
  else
    let sr := search_for_action args.org args.action (args.token.getD "") args.broad
      w.http w.now
    match sr.2 with
    | .error e => (sr.1.map Event.consolePrint, .crashed e)
    | .ok items =>
      let ev0 := sr.1.map Event.consolePrint ++
        [.consolePrint ("Found " ++ toString items.length ++ " workflow files to analyze")]
      let st := runLoop args.action w items
      match renderReport args.action args.org st.usage st.total with
      | .error e => (ev0 ++ st.events, .crashed e)
      | .ok report =>
        (ev0 ++ st.events ++
          [.fileWrite args.output report,
           .consolePrint ("\nScan complete! Report written to " ++ args.output),
           .consolePrint ("Found " ++ toString st.total ++ " instances of " ++ args.action ++
             " across " ++ toString st.usage.length ++ " repositories")],
         .finished)

/-! ## Claim theorems for the Search Executor -/

/-- C4 (amended): a rate-limited body triggers the wait-time computation
(from the rate-limit-reset header, default 0) and an empty result ONLY
when the response status is a success status: `raise_for_status()` runs
before the body is inspected, so every error-status response — even one
whose body indicates rate limiting — takes the generic path that reports
the HTTP status and the response body and returns an empty list. -/
theorem search_rate_limit_and_error_paths (org action token : String) (broad : Bool)
    (r : SearchResponse) (now : Int) :
    (raisesForStatus r.status = false → rateLimitedBody r = true →
      search_for_action org action token broad (.resp r) now =
        (["Searching for workflow files in " ++ org ++ " organization...",
          "Rate limit exceeded. Try again in " ++
            toString (max 0 (r.rateLimitReset.getD 0 - now)) ++ " seconds."], .ok [])) ∧
    (raisesForStatus r.status = true →
      search_for_action org action token broad (.resp r) now =
        (["Searching for workflow files in " ++ org ++ " organization...",
          "Error searching for actions: " ++ excMsg (.httpError r.status r.bodyText),
          "Response: " ++ r.bodyText], .ok [])) := by
  constructor
  · intro hs hr
    unfold rateLimitedBody at hr
    rcases hm : r.message with _ | m
    · rw [hm] at hr; simp at hr
    · rw [hm] at hr
      simp at hr
      simp [search_for_action, hs, hm, hr]
  · intro hs
    simp [search_for_action, hs]

/-- A success-status rate-limited response, for the C4 witness. -/
def rateLimited200 : SearchResponse :=
  { status := 200, bodyText := "", message := some "API rate limit exceeded for user",
    items := [], rateLimitReset := some 160 }

theorem search_rate_limit_and_error_paths_witness :
    raisesForStatus rateLimited200.status = false ∧
    rateLimitedBody rateLimited200 = true ∧
    search_for_action "octo" "a/b" "tok" false (.resp rateLimited200) 100 =
      (["Searching for workflow files in octo organization...",
        "Rate limit exceeded. Try again in " ++
          toString (max 0 (rateLimited200.rateLimitReset.getD 0 - 100)) ++ " seconds."],
       .ok []) :=
  ⟨by decide, by decide,
   (search_rate_limit_and_error_paths "octo" "a/b" "tok" false rateLimited200 100).1
     (by decide) (by decide)⟩

/-- An error-status (403) response whose body indicates rate limiting, as
GitHub actually sends for an exhausted search quota. -/
def rateLimited403 : SearchResponse :=
  { status := 403, bodyText := "rate limit body",
    message := some "API rate limit exceeded for user",
    items := [], rateLimitReset := some 1000 }

/-- C4 counterexample to the claim as stated: this response's body
indicates the rate limit was exceeded, yet the Search Executor reports
only the HTTP status and response body — the wait-time computation and
its report never happen, because `raise_for_status()` raises first. -/
theorem search_403_rate_limit_cex :
    rateLimitedBody rateLimited403 = true ∧
    search_for_action "octo" "a/b" "tok" false (.resp rateLimited403) 100 =
      (["Searching for workflow files in octo organization...",
        "Error searching for actions: 403 Error",
        "Response: rate limit body"], .ok []) :=
  ⟨by decide, rfl⟩

/-! ## Aggregation counters -/

/-- Sum of per-repository record counts. -/
def sumRecords (m : List (String × List UsageRecord)) : Nat :=
  (m.map (fun kv => kv.2.length)).sum

theorem sumRecords_addRecord (m : List (String × List UsageRecord))
    (repo : String) (r : UsageRecord) :
    sumRecords (addRecord m repo r) = sumRecords m + 1 := by
  induction m with
  | nil => simp [addRecord, sumRecords]
  | cons kv rest ih =>
    obtain ⟨k, v⟩ := kv
    by_cases h : k = repo
    · simp [addRecord, h, sumRecords]
      omega
    · have hb : (k == repo) = false := beq_eq_false_iff_ne.mpr h
      simp [addRecord, hb, sumRecords]
      have h2 := ih
      simp only [sumRecords] at h2
      omega

theorem sumRecords_foldl (rs : List UsageRecord) (m : List (String × List UsageRecord))
    (repo : String) :
    sumRecords (rs.foldl (fun acc r => addRecord acc repo r) m) =
      sumRecords m + rs.length := by
  induction rs generalizing m with
  | nil => simp
  | cons r rs ih =>
    simp only [List.foldl_cons, List.length_cons, ih, sumRecords_addRecord]
    omega

theorem runLoopAux_total (action : String) (w : RunWorld) (N : Nat)
    (ps : List (Nat × SearchItem)) (st : LoopState)
    (h : st.total = sumRecords st.usage) :
    (runLoopAux action w N ps st).total =
      sumRecords (runLoopAux action w N ps st).usage := by
  induction ps generalizing st with
  | nil => simpa [runLoopAux]
  | cons p ps ih =>
    rw [runLoopAux]
    apply ih
    simp [sumRecords_foldl, h]

/-- C8: after the scan loop completes — for every action, world and
candidate list — the aggregate total usage count equals the sum over all
repositories of the number of UsageRecords stored for that repository. -/
theorem total_equals_sum_of_repo_counts (action : String) (w : RunWorld)
    (items : List SearchItem) :
    (runLoop action w items).total = sumRecords (runLoop action w items).usage :=
  runLoopAux_total action w items.length items.enum emptyLoopState
    (by simp [emptyLoopState, sumRecords])

/-! ## Event-trace structure of the scan loop -/

/-- Events emitted while processing one enumerated candidate. -/
def itemEvents (action : String) (w : RunWorld) (N : Nat) (p : Nat × SearchItem) :
    List Event :=
  (processItem action w.parse (w.fetch p.1) (p.1 + 1) N p.2).1

theorem runLoopAux_events (action : String) (w : RunWorld) (N : Nat)
    (ps : List (Nat × SearchItem)) (st : LoopState) :
    (runLoopAux action w N ps st).events =
      st.events ++ ps.flatMap (itemEvents action w N) := by
  induction ps generalizing st with
  | nil => simp [runLoopAux]
  | cons p ps ih =>
    rw [runLoopAux, ih]
    simp [itemEvents]

def isSleep : Event → Bool
  | .sleepHalfSecond => true
  | _ => false

/-- Number of courtesy pauses in a trace. -/
def countSleeps (evs : List Event) : Nat := evs.countP isSleep

def exceptIsOk : Except PyExc String → Bool
  | .ok _ => true
  | .error _ => false

theorem countSleeps_processItem (action : String)
    (parse : String → Except PyExc Yaml) (fetched : Except PyExc String)
    (k N : Nat) (item : SearchItem) :
    countSleeps (processItem action parse fetched k N item).1 =
      if exceptIsOk fetched then 1 else 0 := by
  rcases fetched with e | c
  · simp [processItem, countSleeps, isSleep, exceptIsOk, List.countP_cons]
  · simp only [processItem, exceptIsOk, if_true, countSleeps]
    rw [List.countP_append, List.countP_append, List.countP_append]
    have h1 : List.countP isSleep
        ((analyze_workflow_content parse c action
          ⟨item.repo, item.path, basename item.path⟩).1.map Event.consolePrint) = 0 := by
      rw [List.countP_map]
      simp [isSleep, Function.comp]
    rw [h1]
    split <;> simp [isSleep, List.countP_cons]

theorem countSleeps_flatMap (action : String) (w : RunWorld) (N : Nat)
    (ps : List (Nat × SearchItem)) :
    countSleeps (ps.flatMap (itemEvents action w N)) =
      ps.countP (fun p => exceptIsOk (w.fetch p.1)) := by
  induction ps with
  | nil => simp [countSleeps]
  | cons p ps ih =>
    rw [List.flatMap_cons]
    unfold countSleeps at *
    rw [List.countP_append, List.countP_cons]
    rw [ih]
    unfold itemEvents
    have := countSleeps_processItem action w.parse (w.fetch p.1) (p.1 + 1) N p.2
    unfold countSleeps at this
    rw [this]
    by_cases h : exceptIsOk (w.fetch p.1) <;> simp [h] <;> omega

theorem processItem_ok_last (action : String) (parse : String → Except PyExc Yaml)
    (c : String) (k N : Nat) (item : SearchItem) :
    ∃ pre, (processItem action parse (.ok c) k N item).1 =
      pre ++ [Event.sleepHalfSecond] := by
  refine ⟨[Event.consolePrint ("[" ++ toString k ++ "/" ++ toString N ++ "] Analyzing " ++
      item.repo ++ "/" ++ item.path ++ "...")] ++
    (analyze_workflow_content parse c action
      ⟨item.repo, item.path, basename item.path⟩).1.map Event.consolePrint ++
    (if (analyze_workflow_content parse c action
          ⟨item.repo, item.path, basename item.path⟩).2.isEmpty
     then ([] : List Event)
     else [Event.consolePrint ("  Found " ++
        toString (analyze_workflow_content parse c action
          ⟨item.repo, item.path, basename item.path⟩).2.length ++
        " instances of " ++ action)]), ?_⟩
  simp [processItem]

/-- C3 (amended): the fixed courtesy pause happens after a candidate
exactly when its content fetch succeeded (the analyzer itself never
raises): a successful candidate's event segment ends with the pause,
a failed candidate's segment is just the header and the per-file
diagnostic with no pause, and over the whole run the number of pauses
equals the number of candidates whose fetch succeeded — not the number of
candidates processed. -/
theorem pause_only_after_successful_fetch (args : Args) (w : RunWorld)
    (items : List SearchItem) (sP : List String)
    (ht : tokenTruthy args.token = true)
    (hs : search_for_action args.org args.action (args.token.getD "") args.broad
            w.http w.now = (sP, .ok items)) :
    (∀ p : Nat × SearchItem, ∀ c, w.fetch p.1 = .ok c →
      ∃ pre, itemEvents args.action w items.length p =
        pre ++ [Event.sleepHalfSecond]) ∧
    (∀ p : Nat × SearchItem, ∀ e, w.fetch p.1 = .error e →
      itemEvents args.action w items.length p =
        [Event.consolePrint ("[" ++ toString (p.1 + 1) ++ "/" ++ toString items.length ++
           "] Analyzing " ++ p.2.repo ++ "/" ++ p.2.path ++ "..."),
         Event.consolePrint ("Error processing " ++ p.2.path ++ ": " ++ excMsg e)]) ∧
    countSleeps (mainRun args w).1 =
      items.enum.countP (fun p => exceptIsOk (w.fetch p.1)) := by
  refine ⟨?_, ?_, ?_⟩
  · intro p c hc
    unfold itemEvents
    rw [hc]
    exact processItem_ok_last args.action w.parse c (p.1 + 1) items.length p.2
  · intro p e he
    unfold itemEvents
    rw [he]
    simp [processItem]
  · have hnt : (!tokenTruthy args.token) = false := by rw [ht]; rfl
    unfold mainRun
    rw [hnt]
    simp only [Bool.false_eq_true, if_false, hs]
    have hloop : (runLoop args.action w items).events =
        items.enum.flatMap (itemEvents args.action w items.length) := by
      unfold runLoop
      rw [runLoopAux_events]
      simp [emptyLoopState]
    rcases hrr : renderReport args.action args.org (runLoop args.action w items).usage
        (runLoop args.action w items).total with e | rep
    · simp only [hrr]
      unfold countSleeps
      rw [List.countP_append]
      rw [List.countP_append]
      have h0 : List.countP isSleep (sP.map Event.consolePrint) = 0 := by
        rw [List.countP_map]; simp [isSleep, Function.comp]
      rw [hloop]
      have h2 := countSleeps_flatMap args.action w items.length items.enum
      unfold countSleeps at h2
      rw [h2, h0]
      simp [isSleep]
    · simp only [hrr]
      unfold countSleeps
      rw [List.countP_append, List.countP_append, List.countP_append]
      have h0 : List.countP isSleep (sP.map Event.consolePrint) = 0 := by
        rw [List.countP_map]; simp [isSleep, Function.comp]
      rw [hloop]
      have h2 := countSleeps_flatMap args.action w items.length items.enum
      unfold countSleeps at h2
      rw [h2, h0]
      simp [isSleep, List.countP_cons]

/-- Concrete run data for the C3 witness/counterexample and C2
counterexample. -/
def okSearchItem : SearchItem :=
  ⟨"octo/repo", ".github/workflows/ci.yml", "https://api.example.com/contents/ci.yml"⟩

def okSearchResp : SearchResponse :=
  { status := 200, bodyText := "", message := none,
    items := [okSearchItem], rateLimitReset := none }

def c3Args : Args :=
  { org := "octo", action := "a/b", token := some "tok",
    output := "action_usage_report.txt", broad := false }

def c3WorldOk : RunWorld :=
  { http := .resp okSearchResp, now := 0,
    fetch := fun _ => .ok "jobs: absent", parse := fun _ => .ok .null }

theorem pause_only_after_successful_fetch_witness :
    tokenTruthy c3Args.token = true ∧
    search_for_action c3Args.org c3Args.action (c3Args.token.getD "") c3Args.broad
      c3WorldOk.http c3WorldOk.now =
      (["Searching for workflow files in octo organization..."], .ok [okSearchItem]) ∧
    ((∀ p : Nat × SearchItem, ∀ c, c3WorldOk.fetch p.1 = .ok c →
       ∃ pre, itemEvents c3Args.action c3WorldOk [okSearchItem].length p =
         pre ++ [Event.sleepHalfSecond]) ∧
     (∀ p : Nat × SearchItem, ∀ e, c3WorldOk.fetch p.1 = .error e →
       itemEvents c3Args.action c3WorldOk [okSearchItem].length p =
         [Event.consolePrint ("[" ++ toString (p.1 + 1) ++ "/" ++
            toString [okSearchItem].length ++ "] Analyzing " ++ p.2.repo ++ "/" ++
            p.2.path ++ "..."),
          Event.consolePrint ("Error processing " ++ p.2.path ++ ": " ++ excMsg e)]) ∧
     countSleeps (mainRun c3Args c3WorldOk).1 =
       [okSearchItem].enum.countP (fun p => exceptIsOk (c3WorldOk.fetch p.1))) :=
  ⟨by decide, rfl,
   pause_only_after_successful_fetch c3Args c3WorldOk [okSearchItem]
     ["Searching for workflow files in octo organization..."] (by decide) rfl⟩

def c3WorldErr : RunWorld :=
  { http := .resp okSearchResp, now := 0,
    fetch := fun _ => .error (.httpError 404 "Not Found"),
    parse := fun _ => .ok .null }

/-- C3 counterexample to the claim as stated: a run with one candidate
whose fetch raises.  The candidate IS processed (its header line and its
per-file diagnostic appear in the trace, and the run completes), yet the
trace contains NO pause at all: `time.sleep(0.5)` sits inside the `try`
block after the fetch, so the exception skips it. -/
theorem no_pause_after_failed_fetch_cex :
    Event.consolePrint "[1/1] Analyzing octo/repo/.github/workflows/ci.yml..." ∈
      (mainRun c3Args c3WorldErr).1 ∧
    Event.consolePrint ("Error processing .github/workflows/ci.yml: " ++
      excMsg (.httpError 404 "Not Found")) ∈ (mainRun c3Args c3WorldErr).1 ∧
    (mainRun c3Args c3WorldErr).2 = .finished ∧
    countSleeps (mainRun c3Args c3WorldErr).1 = 0 := by
  exact ⟨by decide, by decide, rfl, rfl⟩

/-! ## Report ordering and per-repository discovery order -/

def isMapB : Yaml → Bool
  | .map _ => true
  | _ => false

/-- The records stored for one repository ([] when the repository has
none). -/
def recordsFor (m : List (String × List UsageRecord)) (repo : String) :
    List UsageRecord :=
  (m.lookup repo).getD []

theorem recordsFor_addRecord (m : List (String × List UsageRecord))
    (repo repo2 : String) (r : UsageRecord) :
    recordsFor (addRecord m repo r) repo2 =
      recordsFor m repo2 ++ (if repo == repo2 then [r] else []) := by
  induction m with
  | nil =>
    by_cases h : repo2 = repo
    · simp [addRecord, recordsFor, List.lookup, h]
    · have h1 : (repo2 == repo) = false := beq_eq_false_iff_ne.mpr h
      have h2 : (repo == repo2) = false := beq_eq_false_iff_ne.mpr (Ne.symm h)
      simp [addRecord, recordsFor, List.lookup, h1, h2]
  | cons kv rest ih =>
    obtain ⟨k, v⟩ := kv
    by_cases hk : k = repo
    · subst hk
      rw [addRecord]
      simp only [beq_self_eq_true, if_true]
      by_cases h2 : repo2 = k
      · subst h2
        simp [recordsFor, List.lookup]
      · have hb : (repo2 == k) = false := beq_eq_false_iff_ne.mpr h2
        have hb2 : (k == repo2) = false := beq_eq_false_iff_ne.mpr (Ne.symm h2)
        simp [recordsFor, List.lookup, hb, hb2]
    · have hb : (k == repo) = false := beq_eq_false_iff_ne.mpr hk
      rw [addRecord]
      rw [hb]
      simp only [Bool.false_eq_true, if_false]
      by_cases h2 : repo2 = k
      · subst h2
        have hb2 : (repo == repo2) = false := beq_eq_false_iff_ne.mpr (fun he => hk he.symm)
        simp [recordsFor, List.lookup, hb2]
      · have hb2 : (repo2 == k) = false := beq_eq_false_iff_ne.mpr h2
        have lhs : recordsFor ((k, v) :: addRecord rest repo r) repo2 =
            recordsFor (addRecord rest repo r) repo2 := by
          simp [recordsFor, List.lookup, hb2]
        have rhs : recordsFor ((k, v) :: rest) repo2 = recordsFor rest repo2 := by
          simp [recordsFor, List.lookup, hb2]
        rw [lhs, rhs, ih]

theorem recordsFor_foldl (rs : List UsageRecord)
    (m : List (String × List UsageRecord)) (repo repo2 : String) :
    recordsFor (rs.foldl (fun acc r => addRecord acc repo r) m) repo2 =
      recordsFor m repo2 ++ (if repo == repo2 then rs else []) := by
  induction rs generalizing m with
  | nil => simp
  | cons r rs ih =>
    rw [List.foldl_cons, ih, recordsFor_addRecord]
    by_cases h : repo == repo2 <;> simp [h]

theorem runLoopAux_recordsFor (action : String) (w : RunWorld) (N : Nat)
    (ps : List (Nat × SearchItem)) (st : LoopState) (repo : String) :
    recordsFor (runLoopAux action w N ps st).usage repo =
      recordsFor st.usage repo ++
        ps.flatMap (fun p => if p.2.repo == repo
          then (processItem action w.parse (w.fetch p.1) (p.1 + 1) N p.2).2
          else []) := by
  induction ps generalizing st with
  | nil => simp [runLoopAux]
  | cons p ps ih =>
    rw [runLoopAux, ih]
    simp only [recordsFor_foldl, List.flatMap_cons, List.append_assoc]

theorem renderInstance_ok (i : Nat) (r : UsageRecord) (h : isMapB r.inputs = true) :
    ∃ s, renderInstance i r = .ok s := by
  rcases hr : r.inputs with _ | _ | _ | _ | _ | kvs <;> rw [hr] at h <;> simp [isMapB] at h
  unfold renderInstance
  rw [hr]
  by_cases hk : pyTruthy (Yaml.map kvs) <;>
    simp [hk, Bind.bind, Except.bind, pure, Except.pure] <;> exact ⟨_, rfl⟩

theorem renderInstances_ok (i : Nat) (rs : List UsageRecord)
    (h : ∀ r ∈ rs, isMapB r.inputs = true) :
    ∃ s, renderInstances i rs = .ok s := by
  induction rs generalizing i with
  | nil => exact ⟨"", rfl⟩
  | cons r rs ih =>
    obtain ⟨s1, hs1⟩ := renderInstance_ok i r (h r (List.mem_cons_self r rs))
    obtain ⟨s2, hs2⟩ := ih (i + 1) (fun q hq => h q (List.mem_cons_of_mem r hq))
    exact ⟨s1 ++ s2, by rw [renderInstances]; simp [hs1, hs2, Bind.bind, Except.bind]; rfl⟩

theorem renderRepos_ok (l : List (String × List UsageRecord))
    (h : ∀ kv ∈ l, ∀ r ∈ kv.2, isMapB r.inputs = true) :
    ∃ s, renderRepos l = .ok s := by
  induction l with
  | nil => exact ⟨"", rfl⟩
  | cons kv rest ih =>
    obtain ⟨k, v⟩ := kv
    obtain ⟨s1, hs1⟩ := renderInstances_ok 1 v (h (k, v) (List.mem_cons_self _ rest))
    obtain ⟨s2, hs2⟩ := ih (fun q hq => h q (List.mem_cons_of_mem _ hq))
    refine ⟨("Repository: " ++ k ++ "\n" ++
      String.mk (List.replicate ("Repository: " ++ k).length '-') ++ "\n" ++ s1 ++ "\n") ++ s2, ?_⟩
    rw [renderRepos]
    unfold renderRepo
    simp [hs1, hs2, Bind.bind, Except.bind]
    rfl

instance : IsTrans (String × List UsageRecord) (fun a b => a.1 ≤ b.1) :=
  ⟨fun _ _ _ h1 h2 => le_trans h1 h2⟩

instance : IsTotal (String × List UsageRecord) (fun a b => a.1 ≤ b.1) :=
  ⟨fun a b => le_total a.1 b.1⟩

/-- C7: in the rendered report, repositories appear sorted by full name
(the rendered detail section is the sorted permutation of the discovered
mapping) regardless of discovery order; the records stored for each
repository — which the renderer writes in list order with 1-based
instance numbers — are exactly the records discovered for it, in scan
order; and when zero repositories match, the detailed section is replaced
by the single no-instances line. -/
theorem report_sorted_and_empty_line (action org : String)
    (m : List (String × List UsageRecord)) (total : Nat)
    (hm : ∀ kv ∈ m, ∀ r ∈ kv.2, isMapB r.inputs = true) :
    (m = [] → renderReport action org m total =
      .ok (reportHeader action org 0 total ++
        "No instances of this action were found.\n")) ∧
    (m ≠ [] → ∃ body,
      List.Sorted (fun (a b : String × List UsageRecord) => a.1 ≤ b.1) (sortRepos m) ∧
      (sortRepos m).Perm m ∧
      renderRepos (sortRepos m) = .ok body ∧
      renderReport action org m total =
        .ok (reportHeader action org m.length total ++
          "Detailed Usage by Repository:\n" ++ (String.mk (List.replicate 28 '=') ++ "\n\n") ++
          body)) ∧
    (∀ (action2 : String) (w : RunWorld) (items : List SearchItem) (repo : String),
      recordsFor (runLoop action2 w items).usage repo =
        items.enum.flatMap (fun p => if p.2.repo == repo
          then (processItem action2 w.parse (w.fetch p.1) (p.1 + 1) items.length p.2).2
          else [])) := by
  refine ⟨?_, ?_, ?_⟩
  · intro hm0
    subst hm0
    simp [renderReport, reportHeader, Bind.bind, Except.bind]
    rfl
  · intro hne
    have hperm : (sortRepos m).Perm m := List.perm_insertionSort _ m
    have hsorted : List.Sorted (fun (a b : String × List UsageRecord) => a.1 ≤ b.1)
        (sortRepos m) := List.sorted_insertionSort _ m
    have hm2 : ∀ kv ∈ sortRepos m, ∀ r ∈ kv.2, isMapB r.inputs = true := by
      intro kv hkv
      exact hm kv (hperm.mem_iff.mp hkv)
    obtain ⟨body, hbody⟩ := renderRepos_ok (sortRepos m) hm2
    refine ⟨body, hsorted, hperm, hbody, ?_⟩
    unfold renderReport
    have hlen : 0 < m.length := List.length_pos.mpr hne
    simp [hlen, hbody, Bind.bind, Except.bind]
    rfl
  · intro action2 w items repo
    unfold runLoop
    rw [runLoopAux_recordsFor]
    simp [emptyLoopState, recordsFor]

/-- Discovered usage map for the C7 witness: two repositories inserted
out of lexicographic order. -/
def recA : UsageRecord :=
  { workflow := "ci.yml", path := ".github/workflows/ci.yml", job := "build",
    step_name := .str "Checkout", action_ref := .str "a/b@v2", inputs := .map [] }

def recB : UsageRecord :=
  { workflow := "nightly.yml", path := ".github/workflows/nightly.yml", job := "test",
    step_name := .str "Step 1", action_ref := .str "a/b-suffix@v1",
    inputs := .map [("depth", .int 1)] }

def exUsage : List (String × List UsageRecord) :=
  [("zeta/repo", [recA]), ("alpha/repo", [recB])]

theorem report_sorted_and_empty_line_witness :
    (∀ kv ∈ exUsage, ∀ r ∈ kv.2, isMapB r.inputs = true) ∧
    ((exUsage = [] → renderReport "a/b" "octo" exUsage 2 =
       .ok (reportHeader "a/b" "octo" 0 2 ++
         "No instances of this action were found.\n")) ∧
     (exUsage ≠ [] → ∃ body,
       List.Sorted (fun (a b : String × List UsageRecord) => a.1 ≤ b.1)
         (sortRepos exUsage) ∧
       (sortRepos exUsage).Perm exUsage ∧
       renderRepos (sortRepos exUsage) = .ok body ∧
       renderReport "a/b" "octo" exUsage 2 =
         .ok (reportHeader "a/b" "octo" exUsage.length 2 ++
           "Detailed Usage by Repository:\n" ++ (String.mk (List.replicate 28 '=') ++ "\n\n") ++
           body)) ∧
     (∀ (action2 : String) (w : RunWorld) (items : List SearchItem) (repo : String),
       recordsFor (runLoop action2 w items).usage repo =
         items.enum.flatMap (fun p => if p.2.repo == repo
           then (processItem action2 w.parse (w.fetch p.1) (p.1 + 1) items.length p.2).2
           else []))) :=
  ⟨by decide, report_sorted_and_empty_line "a/b" "octo" exUsage 2 (by decide)⟩

/-! ## Containment of failures (C2 support) -/

theorem docInstances_inputs_map (a : String) (d : Yaml) (h : wfDoc d = true) :
    ∀ inst ∈ docInstances a d, isMapB inst.inputs = true := by
  intro inst hinst
  unfold docInstances at hinst
  rw [List.mem_flatMap] at hinst
  obtain ⟨jc, hjc, hinst⟩ := hinst
  unfold jobContribution at hinst
  rw [List.mem_flatMap] at hinst
  obtain ⟨p, hp, hinst⟩ := hinst
  have hwfjob := wfDoc_jobs d h jc hjc
  have hwfstep := wfJob_steps jc.2 hwfjob p.2 (List.snd_mem_of_mem_enum hp)
  unfold stepContribution at hinst
  by_cases hmatch : matchesTarget a p.2
  · rw [if_pos hmatch] at hinst
    simp at hinst
    subst hinst
    rcases hstep : p.2 with _ | _ | _ | _ | _ | kvs <;>
      rw [hstep] at hwfstep <;> simp [wfStep] at hwfstep
    obtain ⟨h1, h2⟩ := hwfstep
    rcases hw : kvs.lookup "with" with _ | wv
    · simp [mkInstance, hw, isMapB]
    · rw [hw] at h2
      rcases wv <;> simp at h2
      simp [mkInstance, hw, isMapB]
  · rw [if_neg hmatch] at hinst
    simp at hinst

theorem analyze_inputs_map (parse : String → Except PyExc Yaml)
    (hwf : ∀ s d, parse s = .ok d → wfDoc d = true)
    (content a : String) (fi : FileInfo) :
    ∀ inst ∈ (analyze_workflow_content parse content a fi).2,
      isMapB inst.inputs = true := by
  intro inst hinst
  unfold analyze_workflow_content at hinst
  rcases hcs : pyStrIn a content with _ | _
  · rw [hcs] at hinst
    simp at hinst
  · rw [hcs] at hinst
    rcases hp : parse content with e | d
    · rw [hp] at hinst
      simp [Bind.bind, Except.bind] at hinst
    · rw [hp] at hinst
      have hd := hwf content d hp
      simp only [Bind.bind, Except.bind, if_true, analyzeDoc_wf a d hd] at hinst
      exact docInstances_inputs_map a d hd inst hinst

/-- All records stored in the usage mapping have mapping-shaped input
parameters. -/
def usageWf (m : List (String × List UsageRecord)) : Prop :=
  ∀ kv ∈ m, ∀ r ∈ kv.2, isMapB r.inputs = true

theorem usageWf_addRecord (m : List (String × List UsageRecord)) (repo : String)
    (r : UsageRecord) (hm : usageWf m) (hr : isMapB r.inputs = true) :
    usageWf (addRecord m repo r) := by
  induction m with
  | nil =>
    intro kv hkv q hq
    simp [addRecord] at hkv
    subst hkv
    simp at hq
    subst hq
    exact hr
  | cons kv0 rest ih =>
    obtain ⟨k, v⟩ := kv0
    have hrest : usageWf rest := fun q hq => hm q (List.mem_cons_of_mem _ hq)
    have hkv0 : ∀ q ∈ v, isMapB q.inputs = true := by
      intro q hq
      exact hm (k, v) (List.mem_cons_self _ rest) q hq
    intro kv hkv q hq
    rw [addRecord] at hkv
    by_cases hkr : (k == repo) = true
    · rw [if_pos hkr] at hkv
      rcases List.mem_cons.mp hkv with h1 | h1
      · subst h1
        rcases List.mem_append.mp hq with h2 | h2
        · exact hkv0 q h2
        · simp at h2
          subst h2
          exact hr
      · exact hrest kv h1 q hq
    · rw [if_neg hkr] at hkv
      rcases List.mem_cons.mp hkv with h1 | h1
      · subst h1
        exact hkv0 q hq
      · exact ih hrest kv h1 q hq

theorem usageWf_foldl (rs : List UsageRecord) (m : List (String × List UsageRecord))
    (repo : String) (hm : usageWf m) (hrs : ∀ r ∈ rs, isMapB r.inputs = true) :
    usageWf (rs.foldl (fun acc r => addRecord acc repo r) m) := by
  induction rs generalizing m with
  | nil => simpa
  | cons r rs ih =>
    rw [List.foldl_cons]
    exact ih (addRecord m repo r)
      (usageWf_addRecord m repo r hm (hrs r (List.mem_cons_self r rs)))
      (fun q hq => hrs q (List.mem_cons_of_mem r hq))

theorem processItem_records_wf (action : String) (parse : String → Except PyExc Yaml)
    (hwf : ∀ s d, parse s = .ok d → wfDoc d = true)
    (fetched : Except PyExc String) (k N : Nat) (item : SearchItem) :
    ∀ r ∈ (processItem action parse fetched k N item).2, isMapB r.inputs = true := by
  intro r hr
  rcases fetched with e | c
  · simp [processItem] at hr
  · simp only [processItem] at hr
    rw [List.mem_map] at hr
    obtain ⟨inst, hinst, hrec⟩ := hr
    have h := analyze_inputs_map parse hwf c action
      ⟨item.repo, item.path, basename item.path⟩ inst hinst
    rw [← hrec]
    simpa [mkUsageRecord]

theorem runLoopAux_usageWf (action : String) (w : RunWorld) (N : Nat)
    (ps : List (Nat × SearchItem)) (st : LoopState)
    (hwf : ∀ s d, w.parse s = .ok d → wfDoc d = true)
    (hst : usageWf st.usage) : usageWf (runLoopAux action w N ps st).usage := by
  induction ps generalizing st with
  | nil => simpa [runLoopAux]
  | cons p ps ih =>
    rw [runLoopAux]
    exact ih _ (usageWf_foldl _ st.usage p.2.repo hst
      (processItem_records_wf action w.parse hwf (w.fetch p.1) (p.1 + 1) N p.2))

theorem renderReport_ok (action org : String)
    (m : List (String × List UsageRecord)) (total : Nat) (hm : usageWf m) :
    ∃ s, renderReport action org m total = .ok s := by
  by_cases h : 0 < m.length
  · have hperm : (sortRepos m).Perm m := List.perm_insertionSort _ m
    have hm2 : ∀ kv ∈ sortRepos m, ∀ r ∈ kv.2, isMapB r.inputs = true := by
      intro kv hkv
      exact hm kv (hperm.mem_iff.mp hkv)
    obtain ⟨body, hbody⟩ := renderRepos_ok (sortRepos m) hm2
    refine ⟨reportHeader action org m.length total ++
      "Detailed Usage by Repository:\n" ++ (String.mk (List.replicate 28 '=') ++ "\n\n") ++ body, ?_⟩
    unfold renderReport
    simp [h, hbody, Bind.bind, Except.bind]
    rfl
  · refine ⟨reportHeader action org m.length total ++
      "No instances of this action were found.\n", ?_⟩
    unfold renderReport
    simp [h]
    rfl

theorem mainRun_finished (args : Args) (w : RunWorld) (sP : List String)
    (items : List SearchItem) (rep : String)
    (ht : tokenTruthy args.token = true)
    (hs : search_for_action args.org args.action (args.token.getD "") args.broad
      w.http w.now = (sP, .ok items))
    (hrr : renderReport args.action args.org (runLoop args.action w items).usage
      (runLoop args.action w items).total = .ok rep) :
    mainRun args w =
      (sP.map Event.consolePrint ++
        [.consolePrint ("Found " ++ toString items.length ++ " workflow files to analyze")] ++
        (runLoop args.action w items).events ++
        [.fileWrite args.output rep,
         .consolePrint ("\nScan complete! Report written to " ++ args.output),
         .consolePrint ("Found " ++ toString (runLoop args.action w items).total ++
           " instances of " ++ args.action ++ " across " ++
           toString (runLoop args.action w items).usage.length ++ " repositories")],
       .finished) := by
  have hnt : (!tokenTruthy args.token) = false := by rw [ht]; rfl
  unfold mainRun
  rw [hnt]
  simp only [Bool.false_eq_true, if_false, hs, hrr]

/-- C2 (amended): the missing-credential configuration error exits with a
diagnostic; a search-phase HTTP error response and a rate-limit signal
are contained (the run still completes and writes a report); and with any
per-candidate fetch outcomes whatsoever (and documents of the data
model's shape), every per-file failure is contained — the run completes
and each failing candidate surfaces only its operator diagnostic.
However, a search-phase failure that is NOT an HTTP error response (a
transport-level exception such as a connection failure) is NOT contained:
the `except` clause at lines 40-43 only catches `HTTPError`, so such a
failure crashes the run (see the counterexample). -/
theorem failure_containment (args : Args) (w : RunWorld)
    (ht : tokenTruthy args.token = true) :
    (∀ args2 : Args, tokenTruthy args2.token = false →
      mainRun args2 w =
        ([.consolePrint "Error: GitHub token is required. Set GITHUB_TOKEN environment variable or use --token."],
         .exitConfig)) ∧
    (∀ r, w.http = .resp r → raisesForStatus r.status = true →
      (mainRun args w).2 = .finished) ∧
    (∀ r, w.http = .resp r → raisesForStatus r.status = false →
      rateLimitedBody r = true → (mainRun args w).2 = .finished) ∧
    (∀ sP items,
      search_for_action args.org args.action (args.token.getD "") args.broad
        w.http w.now = (sP, .ok items) →
      (∀ s d, w.parse s = .ok d → wfDoc d = true) →
      ((mainRun args w).2 = .finished ∧
       ∀ p ∈ items.enum, ∀ e, w.fetch p.1 = .error e →
         Event.consolePrint ("Error processing " ++ p.2.path ++ ": " ++ excMsg e) ∈
           (mainRun args w).1)) := by
  refine ⟨?_, ?_, ?_, ?_⟩
  · intro args2 h2
    unfold mainRun
    rw [h2]
    rfl
  · intro r hh hsr
    have hs0 : search_for_action args.org args.action (args.token.getD "") args.broad
        w.http w.now =
        (["Searching for workflow files in " ++ args.org ++ " organization...",
          "Error searching for actions: " ++ excMsg (.httpError r.status r.bodyText),
          "Response: " ++ r.bodyText], .ok []) := by
      rw [hh]
      simp [search_for_action, hsr]
    rw [mainRun_finished args w _ [] _ ht hs0 rfl]
  · intro r hh hsr hrl
    unfold rateLimitedBody at hrl
    rcases hmsg : r.message with _ | m
    · rw [hmsg] at hrl; simp at hrl
    · rw [hmsg] at hrl
      simp only at hrl
      have hs0 : search_for_action args.org args.action (args.token.getD "") args.broad
          w.http w.now =
          (["Searching for workflow files in " ++ args.org ++ " organization...",
            "Rate limit exceeded. Try again in " ++
              toString (max 0 (r.rateLimitReset.getD 0 - w.now)) ++ " seconds."], .ok []) := by
        rw [hh]
        simp [search_for_action, hsr, hmsg, hrl]
      rw [mainRun_finished args w _ [] _ ht hs0 rfl]
  · intro sP items hs hwf
    have hwfu : usageWf (runLoop args.action w items).usage := by
      unfold runLoop
      exact runLoopAux_usageWf args.action w items.length items.enum emptyLoopState hwf
        (fun kv hkv => by simp [emptyLoopState] at hkv)
    obtain ⟨rep, hrr⟩ := renderReport_ok args.action args.org
      (runLoop args.action w items).usage (runLoop args.action w items).total hwfu
    constructor
    · rw [mainRun_finished args w sP items rep ht hs hrr]
    · intro p hp e he
      rw [mainRun_finished args w sP items rep ht hs hrr]
      have hev : (runLoop args.action w items).events =
          items.enum.flatMap (itemEvents args.action w items.length) := by
        unfold runLoop
        rw [runLoopAux_events]
        simp [emptyLoopState]
      have hseg : itemEvents args.action w items.length p =
          [Event.consolePrint ("[" ++ toString (p.1 + 1) ++ "/" ++ toString items.length ++
             "] Analyzing " ++ p.2.repo ++ "/" ++ p.2.path ++ "..."),
           Event.consolePrint ("Error processing " ++ p.2.path ++ ": " ++ excMsg e)] := by
        unfold itemEvents
        rw [he]
        simp [processItem]
      have hmem : Event.consolePrint ("Error processing " ++ p.2.path ++ ": " ++ excMsg e) ∈
          (runLoop args.action w items).events := by
        rw [hev]
        rw [List.mem_flatMap]
        exact ⟨p, hp, by rw [hseg]; simp⟩
      simp [hmem]

theorem failure_containment_witness :
    tokenTruthy c3Args.token = true ∧
    ((∀ args2 : Args, tokenTruthy args2.token = false →
       mainRun args2 c3WorldOk =
         ([.consolePrint "Error: GitHub token is required. Set GITHUB_TOKEN environment variable or use --token."],
          .exitConfig)) ∧
     (∀ r, c3WorldOk.http = .resp r → raisesForStatus r.status = true →
       (mainRun c3Args c3WorldOk).2 = .finished) ∧
     (∀ r, c3WorldOk.http = .resp r → raisesForStatus r.status = false →
       rateLimitedBody r = true → (mainRun c3Args c3WorldOk).2 = .finished) ∧
     (∀ sP items,
       search_for_action c3Args.org c3Args.action (c3Args.token.getD "") c3Args.broad
         c3WorldOk.http c3WorldOk.now = (sP, .ok items) →
       (∀ s d, c3WorldOk.parse s = .ok d → wfDoc d = true) →
       ((mainRun c3Args c3WorldOk).2 = .finished ∧
        ∀ p ∈ items.enum, ∀ e, c3WorldOk.fetch p.1 = .error e →
          Event.consolePrint ("Error processing " ++ p.2.path ++ ": " ++ excMsg e) ∈
            (mainRun c3Args c3WorldOk).1))) :=
  ⟨by decide, failure_containment c3Args c3WorldOk (by decide)⟩

/-- World whose search transport raises a connection-level exception. -/
def c2CrashWorld : RunWorld :=
  { http := .netError "Connection refused", now := 0,
    fetch := fun _ => .ok "", parse := fun _ => .ok .null }

/-- C2 counterexample to the claim as stated: a run with a valid
credential whose single search call fails with a connection-level
exception (not an HTTP error response).  The `except
requests.exceptions.HTTPError` clause does not catch it, so the process
terminates abnormally (non-zero exit) on a search-phase failure — the
claim said only the missing-credential configuration error can terminate
the process with a non-zero exit. -/
theorem search_connection_failure_crashes_cex :
    tokenTruthy c3Args.token = true ∧
    mainRun c3Args c2CrashWorld =
      ([.consolePrint "Searching for workflow files in octo organization..."],
       .crashed (.connectionError "Connection refused")) :=
  ⟨by decide, rfl⟩
